import Mathlib

/-!
Verification of the SplitPane widget (src/SplitPane.tsx).

Shallow embedding conventions:
* JavaScript numbers are modelled as exact rationals (`ℚ`).  The widget's
  arithmetic is addition, subtraction, multiplication and division of
  on-screen quantities, for which IEEE doubles behave like exact rationals
  in every scenario the claims describe; `NaN` results of `parseFloat` /
  `Number` are modelled with `Option ℚ` (`none` = NaN), and the code's
  NaN-propagation through comparisons (`NaN < x` is `false`) is modelled
  explicitly at each use site.
* JavaScript strings are modelled as `List Char`.  `parseFloat` is modelled
  on its decimal fragment (optional whitespace, optional sign, digits with an
  optional fractional part, longest prefix); exponents, `Infinity` and hex
  literals do not arise in this widget's domain and are not modelled.
* Number-to-string interpolation (template literals) is modelled by an exact
  decimal printer; JavaScript prints the shortest decimal that round-trips
  through the double, which agrees with the exact printer on every value the
  claims exercise.
* DOM geometry (`getBoundingClientRect`, `clientWidth`) is an input read
  fresh at each event, modelled as explicit parameters; an unmounted ref is
  `Option.none`.
-/

namespace SplitPaneModel

/-- Whitespace characters removed by JavaScript `trim` (core fragment). -/
def isWS (c : Char) : Bool :=
  c = ' ' || c = '\t' || c = '\n' || c = '\r'

/-- Drop leading whitespace. -/
def dropWS : List Char → List Char
  | [] => []
  | c :: r => if isWS c then dropWS r else c :: r

/-- JavaScript `String.prototype.trim`: strip whitespace from both ends. -/
def jsTrim (s : List Char) : List Char :=
  dropWS ((dropWS s.reverse).reverse)

/-- Does the string end with the character `'%'`? (JavaScript
`endsWith("%")`.) -/
def endsPercent : List Char → Bool
  | [] => false
  | [c] => c = '%'
  | _ :: c :: r => endsPercent (c :: r)

/-- Source `isPercentage`: `value.trim().endsWith("%")`. -/
def isPercentage (s : List Char) : Bool :=
  endsPercent (jsTrim s)

/-- JavaScript `s.replace("%", "")`: remove the first occurrence of `'%'`. -/
def replaceFirstPercent : List Char → List Char
  | [] => []
  | c :: r => if c = '%' then r else c :: replaceFirstPercent r

/-- Decimal digit value of a character, if it is a digit. -/
def digitVal (c : Char) : Option ℕ :=
  if '0' ≤ c ∧ c ≤ '9' then some (c.toNat - 48) else none

/-- Consume a maximal run of decimal digits, returning the accumulated value,
the number of digits consumed and the rest of the string. -/
def parseDigitsAux : List Char → ℕ → ℕ → ℕ × ℕ × List Char
  | [], acc, cnt => (acc, cnt, [])
  | c :: r, acc, cnt =>
    match digitVal c with
    | some d => parseDigitsAux r (acc * 10 + d) (cnt + 1)
    | none => (acc, cnt, c :: r)

/-- Parse an optionally signed decimal numeral prefix (sign, integer digits,
optional `.` and fraction digits); returns the value and the rest of the
string, or `none` when no digit is present. -/
def jsParseNum (s : List Char) : Option (ℚ × List Char) :=
  let signed : ℚ × List Char :=
    match s with
    | '-' :: r => (-1, r)
    | '+' :: r => (1, r)
    | _ => (1, s)
  let ipart := parseDigitsAux signed.2 0 0
  match ipart.2.2 with
  | '.' :: r2 =>
    let fpart := parseDigitsAux r2 0 0
    if ipart.2.1 + fpart.2.1 = 0 then none
    else
      some (signed.1 * ((ipart.1 : ℚ) + (fpart.1 : ℚ) / 10 ^ fpart.2.1),
            fpart.2.2)
  | _ =>
    if ipart.2.1 = 0 then none
    else some (signed.1 * (ipart.1 : ℚ), ipart.2.2)

/-- JavaScript `parseFloat` (decimal fragment): skip leading whitespace,
optional sign, digits with an optional fractional part, parsing the longest
valid prefix; `none` models NaN. -/
def parseFloat (s : List Char) : Option ℚ :=
  (jsParseNum (dropWS s)).map Prod.fst

/-- JavaScript `Number(string)` (decimal fragment): trim both ends; the empty
string is `0`; otherwise the whole string must be a signed decimal numeral,
else NaN (`none`). -/
def jsNumberStr (s : List Char) : Option ℚ :=
  let t := jsTrim s
  if t = [] then some 0
  else
    match jsParseNum t with
    | some (v, []) => some v
    | _ => none

/-- Digits of a natural number, most significant first (fuel-indexed worker). -/
def natCharsAux : ℕ → ℕ → List Char → List Char
  | 0, _, acc => acc
  | fuel + 1, n, acc =>
    if n = 0 then acc
    else natCharsAux fuel (n / 10) (Char.ofNat (48 + n % 10) :: acc)

/-- Decimal rendering of a natural number, as JavaScript prints it. -/
def natChars (n : ℕ) : List Char :=
  if n = 0 then ['0'] else natCharsAux (n + 1) n []

/-- Fraction digits of `rem / den` by long division, up to `fuel` digits
(terminates early when the remainder reaches zero). -/
def fracChars : ℕ → ℕ → ℕ → List Char
  | 0, _, _ => []
  | _ + 1, 0, _ => []
  | fuel + 1, rem, den =>
    Char.ofNat (48 + rem * 10 / den) :: fracChars fuel (rem * 10 % den) den

/-- Decimal rendering of a non-negative rational. -/
def ratCharsNN (q : ℚ) : List Char :=
  natChars (q.num.toNat / q.den) ++
    (if q.num.toNat % q.den = 0 then []
     else '.' :: fracChars 40 (q.num.toNat % q.den) q.den)

/-- JavaScript number-to-string interpolation for a rational: exact decimal
rendering (JavaScript prints the shortest decimal that round-trips, which
coincides with the exact expansion on every value the claims exercise). -/
def ratChars (q : ℚ) : List Char :=
  if q < 0 then '-' :: ratCharsNN (-q) else ratCharsNN q

/-- Rendering of a possibly-NaN number, as template literals print it. -/
def optRatChars : Option ℚ → List Char
  | none => ['N', 'a', 'N']
  | some q => ratChars q

/-- The `string | number` union used for `initialSize`, `minSize` and the
`leftPaneSize` state. -/
inductive SizeValue where
  | num (q : ℚ)
  | str (s : List Char)
deriving DecidableEq

/-- Source `isString(value) ? parseFloat(value) : value` (the numeric view
used by `validateSize` and `isNegative`); `none` models NaN. -/
def sizeNumber : SizeValue → Option ℚ
  | .num q => some q
  | .str s => parseFloat s

/-- JavaScript `Number(value)` on the union type; `none` models NaN. -/
def jsNumberSV : SizeValue → Option ℚ
  | .num q => some q
  | .str s => jsNumberStr s

/-- Source `isString(minSize) && isPercentage(minSize)`. -/
def isMinSizeInPercentage : SizeValue → Bool
  | .num _ => false
  | .str s => isPercentage s

/-- Geometry of a rendered element as read from
`getBoundingClientRect()` / `clientWidth`. -/
structure Rect where
  width : ℚ
  left : ℚ
deriving DecidableEq

/-- The `minPixel` computation inside `convertPixelToPercentage`:
`isString(minSize) && isPercentage(minSize) ?
(parseFloat(minSize.replace("%", "")) / 100) * totalSize : Number(minSize)`. -/
def minPixelOf (totalSize : ℚ) (minSize : SizeValue) : Option ℚ :=
  match minSize with
  | .str s =>
    if isPercentage s then
      (parseFloat (replaceFirstPercent s)).map (fun v => v / 100 * totalSize)
    else jsNumberStr s
  | .num q => some q

/-- Source `convertPixelToPercentage`: `0` when the container ref is null;
otherwise convert the coordinate to an offset from the container's left
edge, clamp it to `[minPixel, totalSize - minPixel]` (each comparison with a
NaN bound is false, so a NaN `minPixel` clamps nothing), and return it as a
percentage of the container width.  `none` models a NaN result (NaN input
coordinate). -/
def convertPixelToPercentage (geom : Option Rect) (minSize : SizeValue)
    (px : SizeValue) : Option ℚ :=
  match geom with
  | none => some 0
  | some rect =>
    let totalSize := rect.width
    match (match px with | .num q => some q | .str s => parseFloat s) with
    | none => none
    | some p =>
      let lps := p - rect.left
      let lps2 :=
        match minPixelOf totalSize minSize with
        | none => lps
        | some m =>
          if lps < m then m
          else if lps > totalSize - m then totalSize - m
          else lps
      some (lps2 / totalSize * 100)

/-- Source `getPercentage`: a percentage string is parsed directly; anything
else goes through `convertPixelToPercentage`. -/
def getPercentage (geom : Option Rect) (minSize : SizeValue)
    (value : SizeValue) : Option ℚ :=
  match value with
  | .str s =>
    if isPercentage s then parseFloat (replaceFirstPercent s)
    else convertPixelToPercentage geom minSize (.str s)
  | .num q => convertPixelToPercentage geom minSize (.num q)

/-- Source `ariaValueMin = getPercentage(minSize)`. -/
def ariaValueMin (geom : Option Rect) (minSize : SizeValue) : Option ℚ :=
  getPercentage geom minSize minSize

/-- Source `ariaValueNow = getPercentage(leftPaneSize)`. -/
def ariaValueNow (geom : Option Rect) (minSize leftPaneSize : SizeValue) :
    Option ℚ :=
  getPercentage geom minSize leftPaneSize

/-- Source `aria-valuemax = 100 - ariaValueMin` (NaN propagates). -/
def ariaValueMax (geom : Option Rect) (minSize : SizeValue) : Option ℚ :=
  (ariaValueMin geom minSize).map (fun v => 100 - v)

/-- Source `aria-valuetext` template: the current value followed by
a percent sign and the words of the width. -/
def ariaValueText (geom : Option Rect) (minSize leftPaneSize : SizeValue) :
    List Char :=
  optRatChars (ariaValueNow geom minSize leftPaneSize) ++
    ('%' :: ' ' :: 'o' :: 'f' :: ' ' :: 't' :: 'h' :: 'e' :: ' ' ::
     'w' :: 'i' :: 'd' :: 't' :: 'h' :: [])

/-- Source `containerMinWidth`: `undefined` (outer `none`) for a percentage
`minSize`, otherwise `Number(minSize) * 2 + (dividerRef.current?.clientWidth
|| 0)` (inner `none` models a NaN value). -/
def containerMinWidth (minSize : SizeValue) (dividerClientWidth : Option ℚ) :
    Option (Option ℚ) :=
  if isMinSizeInPercentage minSize then none
  else
    some ((jsNumberSV minSize).map
      (fun v => v * 2 + (dividerClientWidth.getD 0)))

/-- Source `flexBasis`: the stored size itself when it is a percentage
string, otherwise the size with a pixel suffix. -/
def flexBasis : SizeValue → List Char
  | .str s => if isPercentage s then s else s ++ ('p' :: 'x' :: [])
  | .num q => ratChars q ++ ('p' :: 'x' :: [])

/-- Source `minWidth` style string for both panes: `minSize` itself when it
is a percentage string, otherwise with a pixel suffix. -/
def minWidthStyle : SizeValue → List Char
  | .str s => if isPercentage s then s else s ++ ('p' :: 'x' :: [])
  | .num q => ratChars q ++ ('p' :: 'x' :: [])

/-- Which size prop an error message names. -/
inductive SizeLabel where
  | initial
  | min
deriving DecidableEq

/-- The four fatal configuration errors the component can throw. -/
inductive ConfigError where
  | wrongChildCount
  | notANumber (label : SizeLabel)
  | negativeSize (label : SizeLabel)
  | minSizeTooLarge
deriving DecidableEq

/-- Source `validateSize`: throw when the numeric view is NaN, then when it
is negative. -/
def validateSize (size : SizeValue) (label : SizeLabel) : Option ConfigError :=
  match sizeNumber size with
  | none => some (.notANumber label)
  | some v => if v < 0 then some (.negativeSize label) else none

/-- Source check `isString(minSize) && isPercentage(minSize) &&
parseFloat(minSize.replace("%", "")) > 50` (a NaN compares false). -/
def minSizePctCheck (minSize : SizeValue) : Option ConfigError :=
  match minSize with
  | .num _ => none
  | .str s =>
    if isPercentage s then
      match parseFloat (replaceFirstPercent s) with
      | some v => if v > 50 then some .minSizeTooLarge else none
      | none => none
    else none

/-- The size-prop validation sequence of the component body, in source
order: `validateSize(initialSize)`, `validateSize(minSize)`, percentage
bound. -/
def sizeValidationError (initialSize minSize : SizeValue) :
    Option ConfigError :=
  match validateSize initialSize .initial with
  | some e => some e
  | none =>
    match validateSize minSize .min with
    | some e => some e
    | none => minSizePctCheck minSize

/-- Full prop validation in source order: child count first, then sizes. -/
def validateProps (childCount : ℕ) (initialSize minSize : SizeValue) :
    Option ConfigError :=
  if childCount ≠ 2 then some .wrongChildCount
  else sizeValidationError initialSize minSize

/-- The attributes the component computes for a render. -/
structure RenderOut where
  containerMinWidth : Option (Option ℚ)
  leftFlexBasis : List Char
  paneMinWidth : List Char
  ariaMin : Option ℚ
  ariaMax : Option ℚ
  ariaNow : Option ℚ
  ariaText : List Char
deriving DecidableEq

/-- The render output for a given state of the component. -/
def renderState (geom : Option Rect) (dividerClientWidth : Option ℚ)
    (minSize leftPaneSize : SizeValue) : RenderOut :=
  { containerMinWidth := containerMinWidth minSize dividerClientWidth
    leftFlexBasis := flexBasis leftPaneSize
    paneMinWidth := minWidthStyle minSize
    ariaMin := ariaValueMin geom minSize
    ariaMax := ariaValueMax geom minSize
    ariaNow := ariaValueNow geom minSize leftPaneSize
    ariaText := ariaValueText geom minSize leftPaneSize }

/-- Construction: validation runs before any output is produced, so a
validation error yields no render at all. -/
def construct (geom : Option Rect) (dividerClientWidth : Option ℚ)
    (childCount : ℕ) (initialSize minSize : SizeValue) :
    Except ConfigError RenderOut :=
  match validateProps childCount initialSize minSize with
  | some e => .error e
  | none => .ok (renderState geom dividerClientWidth minSize initialSize)

/-- Mutable component state: the left-pane size plus which of the four
global window listeners are currently registered (`addEventListener` with
the same callback is idempotent, so booleans suffice). -/
structure PaneState where
  leftPaneSize : SizeValue
  mousemoveOn : Bool
  mouseupOn : Bool
  touchmoveOn : Bool
  touchendOn : Bool
deriving DecidableEq

/-- State at mount time: `useState(initialSize)`, no listeners. -/
def initialState (initialSize : SizeValue) : PaneState :=
  ⟨initialSize, false, false, false, false⟩

/-- Source `handleMove`: store the converted coordinate as a percentage
string. -/
def handleMove (geom : Option Rect) (minSize : SizeValue) (x : ℚ)
    (s : PaneState) : PaneState :=
  let v := SizeValue.str
    (optRatChars (convertPixelToPercentage geom minSize (.num x)) ++ ['%'])
  { s with leftPaneSize := v }

/-- Source `removeEventListeners`: unregister all four window listeners. -/
def removeEventListeners (s : PaneState) : PaneState :=
  { s with mousemoveOn := false, mouseupOn := false,
           touchmoveOn := false, touchendOn := false }

/-- Source `handleMouseDown`: register the mouse move and release listeners. -/
def handleMouseDown (s : PaneState) : PaneState :=
  { s with mousemoveOn := true, mouseupOn := true }

/-- Source `handleTouchStart`: register the touch move and release
listeners. -/
def handleTouchStart (s : PaneState) : PaneState :=
  { s with touchmoveOn := true, touchendOn := true }

/-- Keys the `keydown` handler distinguishes. -/
inductive JKey where
  | arrowLeft
  | arrowRight
  | other
deriving DecidableEq

/-- Source `handleKeyDown`: nothing without a divider ref; otherwise a
single synthesized move at the divider's left edge minus or plus ten
pixels. -/
def handleKeyDown (geom : Option Rect) (minSize : SizeValue)
    (divider : Option Rect) (key : JKey) (s : PaneState) : PaneState :=
  match divider with
  | none => s
  | some r =>
    match key with
    | .arrowLeft => handleMove geom minSize (r.left - 10) s
    | .arrowRight => handleMove geom minSize (r.left + 10) s
    | .other => s

/-- The interaction events the component reacts to.  A `keyDown` carries the
divider geometry read from the DOM at that moment. -/
inductive Ev where
  | mouseDown
  | touchStart
  | mouseUp
  | touchEnd
  | contextMenu
  | mouseMove (clientX : ℚ)
  | touchMove (pageX : ℚ)
  | keyDown (divider : Option Rect) (key : JKey)
deriving DecidableEq

/-- One event step.  Window move and release handlers only run while their
listener is registered; the divider's own `contextmenu` and `keydown`
handlers are always active. -/
def step (geom : Option Rect) (minSize : SizeValue) (s : PaneState)
    (e : Ev) : PaneState :=
  match e with
  | .mouseDown => handleMouseDown s
  | .touchStart => handleTouchStart s
  | .mouseMove x => if s.mousemoveOn then handleMove geom minSize x s else s
  | .touchMove x => if s.touchmoveOn then handleMove geom minSize x s else s
  | .mouseUp => if s.mouseupOn then removeEventListeners s else s
  | .touchEnd => if s.touchendOn then removeEventListeners s else s
  | .contextMenu => removeEventListeners s
  | .keyDown divider key => handleKeyDown geom minSize divider key s

/-- Run a sequence of events against a fixed container geometry. -/
def runScript (geom : Option Rect) (minSize : SizeValue) (s : PaneState)
    (es : List Ev) : PaneState :=
  es.foldl (step geom minSize) s

/-- The unmount cleanup effect: `removeEventListeners`, unconditionally. -/
def unmount (s : PaneState) : PaneState :=
  removeEventListeners s

/-- The percentage-string form `handleMove` stores: the rendered number
followed by a percent sign. -/
def pctStr (q : ℚ) : SizeValue :=
  .str (ratChars q ++ ['%'])

/-- Is the value a string (source `isString`)? -/
def isStrVal : SizeValue → Bool
  | .str _ => true
  | .num _ => false

/-- The character content of a size value (its template-literal rendering). -/
def sizeChars : SizeValue → List Char
  | .str s => s
  | .num q => ratChars q

/-- The stored size is a percentage string of the form `handleMove`
produces. -/
def IsPctStringForm (v : SizeValue) : Prop :=
  ∃ q, v = pctStr q

/-- The stored size is a percentage string whose pixel normalization
(`q` percent of the container width `W`) lies within
`[m, W - m]`. -/
def SizeInBounds (W m : ℚ) (v : SizeValue) : Prop :=
  ∃ q, v = pctStr q ∧ m ≤ q / 100 * W ∧ q / 100 * W ≤ W - m

/-- A size value accepted by `validateSize`: its numeric view parses and is
non-negative. -/
def OkSizeNum (v : SizeValue) : Prop :=
  ∃ q, sizeNumber v = some q ∧ 0 ≤ q

/-- A `minSize` passing the percentage bound: whenever it is a percentage
string, any parsed percentage is at most fifty. -/
def MinPctBound : SizeValue → Prop
  | .num _ => True
  | .str s =>
    isPercentage s = true →
      ∀ v, parseFloat (replaceFirstPercent s) = some v → v ≤ 50

/-- Modelled from the spec: an unsigned decimal numeral making up the whole
string (digits with an optional fractional part). -/
def specNumeralShape (s : List Char) : Bool :=
  let ipart := parseDigitsAux s 0 0
  match ipart.2.2 with
  | [] => decide (0 < ipart.2.1)
  | '.' :: r2 =>
    let fpart := parseDigitsAux r2 0 0
    decide (0 < ipart.2.1 + fpart.2.1) && decide (fpart.2.2 = [])
  | _ => false

/-- Modelled from the spec: the string shape the specification says is the
set of accepted string inputs — a non-negative decimal numeral, optionally
followed by a single percent sign (spec: strings that are a non-negative
number or a non-negative number followed by the percent sign). -/
def specNumericShape (s : List Char) : Bool :=
  specNumeralShape s ||
    (match s.reverse with
     | '%' :: r => specNumeralShape r.reverse
     | _ => false)

theorem isWS_percent : isWS '%' = false := by decide

theorem endsPercent_cons (c : Char) (l : List Char) (h : l ≠ []) :
    endsPercent (c :: l) = endsPercent l := by
  cases l with
  | nil => exact absurd rfl h
  | cons d r => rfl

theorem endsPercent_append (xs : List Char) :
    endsPercent (xs ++ ['%']) = true := by
  induction xs with
  | nil => decide
  | cons c r ih =>
    rw [List.cons_append, endsPercent_cons c (r ++ ['%']) (by simp), ih]

theorem endsPercent_dropWS_append (xs : List Char) :
    endsPercent (dropWS (xs ++ ['%'])) = true := by
  induction xs with
  | nil =>
    show endsPercent (dropWS ['%']) = true
    rw [dropWS]
    simp [isWS_percent]
    decide
  | cons c r ih =>
    rw [List.cons_append, dropWS]
    by_cases h : isWS c
    · rw [if_pos h]; exact ih
    · rw [if_neg h]
      rw [endsPercent_cons c (r ++ ['%']) (by simp), endsPercent_append]

theorem jsTrim_append_percent (xs : List Char) :
    jsTrim (xs ++ ['%']) = dropWS (xs ++ ['%']) := by
  rw [jsTrim]
  have h1 : (xs ++ ['%']).reverse = '%' :: xs.reverse := by simp
  rw [h1, dropWS, if_neg (by decide : ¬ (isWS '%' = true))]
  simp

theorem isPercentage_append_percent (xs : List Char) :
    isPercentage (xs ++ ['%']) = true := by
  rw [isPercentage, jsTrim_append_percent, endsPercent_dropWS_append]

theorem flexBasis_pctStr (q : ℚ) :
    flexBasis (pctStr q) = ratChars q ++ ['%'] := by
  rw [pctStr, flexBasis, isPercentage_append_percent, if_pos rfl]

theorem ifClamp_eq_max_min (v m hi : ℚ) (h : m ≤ hi) :
    (if v < m then m else if v > hi then hi else v) = max m (min v hi) := by
  split_ifs with h1 h2
  · rw [min_eq_left (le_trans (le_of_lt h1) h), max_eq_left (le_of_lt h1)]
  · rw [min_eq_right (le_of_lt h2), max_eq_right h]
  · rw [min_eq_left (not_lt.mp h2), max_eq_right (not_lt.mp h1)]

theorem ifClamp_mem (v m hi : ℚ) (h : m ≤ hi) :
    m ≤ (if v < m then m else if v > hi then hi else v) ∧
      (if v < m then m else if v > hi then hi else v) ≤ hi := by
  split_ifs with h1 h2
  · exact ⟨le_refl m, h⟩
  · exact ⟨h, le_refl hi⟩
  · exact ⟨not_lt.mp h1, not_lt.mp h2⟩

theorem convert_num_eq (W L m x : ℚ) (minSize : SizeValue)
    (hm : minPixelOf W minSize = some m) :
    convertPixelToPercentage (some ⟨W, L⟩) minSize (.num x) =
      some ((if x - L < m then m else if x - L > W - m then W - m
             else x - L) / W * 100) := by
  simp only [convertPixelToPercentage, hm]

theorem convert_num_isSome (geom : Option Rect) (minSize : SizeValue)
    (x : ℚ) :
    ∃ q, convertPixelToPercentage geom minSize (.num x) = some q := by
  cases geom with
  | none => exact ⟨0, rfl⟩
  | some rect =>
    cases hm : minPixelOf rect.width minSize with
    | none => exact ⟨(x - rect.left) / rect.width * 100, by
        simp only [convertPixelToPercentage, hm]⟩
    | some m =>
      exact ⟨(if x - rect.left < m then m
              else if x - rect.left > rect.width - m then rect.width - m
              else x - rect.left) / rect.width * 100,
        by simp only [convertPixelToPercentage, hm]⟩

theorem handleMove_pctForm (geom : Option Rect) (minSize : SizeValue)
    (x : ℚ) (s : PaneState) :
    IsPctStringForm ((handleMove geom minSize x s).leftPaneSize) := by
  obtain ⟨q, hq⟩ := convert_num_isSome geom minSize x
  exact ⟨q, by simp [handleMove, hq, pctStr, optRatChars]⟩

theorem div_mul_roundtrip (c W : ℚ) (hW0 : W ≠ 0) :
    c / W * 100 / 100 * W = c := by
  field_simp
  ring

theorem handleMove_inBounds (W L m x : ℚ) (minSize : SizeValue)
    (s : PaneState) (hW : 0 < W) (hm : minPixelOf W minSize = some m)
    (h2 : m ≤ W - m) :
    SizeInBounds W m ((handleMove (some ⟨W, L⟩) minSize x s).leftPaneSize) := by
  have hW0 : W ≠ 0 := ne_of_gt hW
  have hmem := ifClamp_mem (x - L) m (W - m) h2
  set c := (if x - L < m then m else if x - L > W - m then W - m
            else x - L) with hc
  refine ⟨c / W * 100, ?_, ?_, ?_⟩
  · simp [handleMove, convert_num_eq W L m x minSize hm, pctStr,
      optRatChars, hc]
  · rw [div_mul_roundtrip c W hW0]; exact hmem.1
  · rw [div_mul_roundtrip c W hW0]; exact hmem.2

theorem step_size_cases (geom : Option Rect) (minSize : SizeValue)
    (e : Ev) (s : PaneState) :
    (step geom minSize s e).leftPaneSize = s.leftPaneSize ∨
      ∃ x, step geom minSize s e = handleMove geom minSize x s := by
  cases e with
  | mouseDown => exact Or.inl rfl
  | touchStart => exact Or.inl rfl
  | mouseUp =>
    by_cases h : s.mouseupOn = true
    · exact Or.inl (by simp [step, h, removeEventListeners])
    · exact Or.inl (by simp [step, h])
  | touchEnd =>
    by_cases h : s.touchendOn = true
    · exact Or.inl (by simp [step, h, removeEventListeners])
    · exact Or.inl (by simp [step, h])
  | contextMenu => exact Or.inl rfl
  | mouseMove x =>
    by_cases h : s.mousemoveOn = true
    · exact Or.inr ⟨x, by simp [step, h]⟩
    · exact Or.inl (by simp [step, h])
  | touchMove x =>
    by_cases h : s.touchmoveOn = true
    · exact Or.inr ⟨x, by simp [step, h]⟩
    · exact Or.inl (by simp [step, h])
  | keyDown divider key =>
    cases divider with
    | none => exact Or.inl rfl
    | some r =>
      cases key with
      | arrowLeft => exact Or.inr ⟨r.left - 10, rfl⟩
      | arrowRight => exact Or.inr ⟨r.left + 10, rfl⟩
      | other => exact Or.inl rfl

theorem runScript_cons (geom : Option Rect) (minSize : SizeValue)
    (s : PaneState) (e : Ev) (es : List Ev) :
    runScript geom minSize s (e :: es) =
      runScript geom minSize (step geom minSize s e) es := rfl

theorem step_pctForm (geom : Option Rect) (minSize : SizeValue) (e : Ev)
    (s : PaneState) (h : IsPctStringForm s.leftPaneSize) :
    IsPctStringForm ((step geom minSize s e).leftPaneSize) := by
  rcases step_size_cases geom minSize e s with heq | ⟨x, heq⟩
  · rw [heq]; exact h
  · rw [heq]; exact handleMove_pctForm geom minSize x s

theorem runScript_pctForm (geom : Option Rect) (minSize : SizeValue)
    (es : List Ev) (s : PaneState) (h : IsPctStringForm s.leftPaneSize) :
    IsPctStringForm ((runScript geom minSize s es).leftPaneSize) := by
  induction es generalizing s with
  | nil => exact h
  | cons e es ih =>
    rw [runScript_cons]
    exact ih _ (step_pctForm geom minSize e s h)

theorem runScript_bounds (W L m : ℚ) (minSize : SizeValue)
    (hW : 0 < W) (hm : minPixelOf W minSize = some m) (h2 : m ≤ W - m)
    (es : List Ev) (s : PaneState) :
    (runScript (some ⟨W, L⟩) minSize s es).leftPaneSize = s.leftPaneSize ∨
      SizeInBounds W m ((runScript (some ⟨W, L⟩) minSize s es).leftPaneSize)
    := by
  induction es generalizing s with
  | nil => exact Or.inl rfl
  | cons e es ih =>
    rw [runScript_cons]
    rcases ih (step (some ⟨W, L⟩) minSize s e) with heq | hb
    · rcases step_size_cases (some ⟨W, L⟩) minSize e s with h1 | ⟨x, h1⟩
      · exact Or.inl (heq.trans h1)
      · refine Or.inr ?_
        rw [heq, h1]
        exact handleMove_inBounds W L m x minSize s hW hm h2
    · exact Or.inr hb

theorem validateSize_cases (v : SizeValue) (l : SizeLabel) :
    validateSize v l = none ∨ validateSize v l = some (.notANumber l) ∨
      validateSize v l = some (.negativeSize l) := by
  cases hv : sizeNumber v with
  | none => exact Or.inr (Or.inl (by simp [validateSize, hv]))
  | some q =>
    by_cases h : q < 0
    · exact Or.inr (Or.inr (by simp [validateSize, hv, h]))
    · exact Or.inl (by simp [validateSize, hv, h])

theorem minSizePctCheck_cases (m : SizeValue) :
    minSizePctCheck m = none ∨ minSizePctCheck m = some .minSizeTooLarge := by
  cases m with
  | num q => exact Or.inl rfl
  | str s =>
    by_cases hp : isPercentage s = true
    · cases hpf : parseFloat (replaceFirstPercent s) with
      | none => exact Or.inl (by simp [minSizePctCheck, hp, hpf])
      | some v =>
        by_cases hv : v > 50
        · exact Or.inr (by simp [minSizePctCheck, hp, hpf, hv])
        · exact Or.inl (by simp [minSizePctCheck, hp, hpf, hv])
    · exact Or.inl (by simp [minSizePctCheck, hp])

theorem sizeValidationError_ne_child (i m : SizeValue) :
    sizeValidationError i m ≠ some ConfigError.wrongChildCount := by
  unfold sizeValidationError
  rcases validateSize_cases i .initial with h1 | h1 | h1 <;> rw [h1] <;>
    try simp
  rcases validateSize_cases m .min with h2 | h2 | h2 <;> rw [h2] <;>
    try simp
  rcases minSizePctCheck_cases m with h3 | h3 <;> rw [h3] <;> simp

/-- C5: construction fails with the child-count configuration error exactly
when the number of children differs from two; with exactly two children the
child-count error is never raised, and on any failure validation throws
before any render output is produced. -/
theorem childCount_error_iff (g : Option Rect) (dw : Option ℚ) (n : ℕ)
    (i m : SizeValue) :
    (n ≠ 2 → construct g dw n i m = .error .wrongChildCount) ∧
    (n = 2 → construct g dw n i m ≠ .error .wrongChildCount) := by
  constructor
  · intro h
    simp [construct, validateProps, h]
  · intro h
    subst h
    unfold construct validateProps
    rw [if_neg (by simp)]
    cases hv : sizeValidationError i m with
    | none => simp
    | some e =>
      simp only []
      intro hcontra
      apply sizeValidationError_ne_child i m
      rw [hv]
      cases hcontra
      rfl

/-- Witness for C5: with three children, construction fails with the
child-count error on concrete inputs. -/
theorem childCount_error_iff_witness :
    construct none none 3 (.str "50%".data) (.num 100) =
      .error .wrongChildCount :=
  (childCount_error_iff none none 3 (.str "50%".data) (.num 100)).1
    (by decide)

/-- C8: unmounting in any state removes all four global window listeners and
does not touch the stored size; when no listener is registered the cleanup
is a no-op on the whole state. -/
theorem unmount_removes_listeners (s : PaneState) :
    (unmount s).mousemoveOn = false ∧ (unmount s).mouseupOn = false ∧
    (unmount s).touchmoveOn = false ∧ (unmount s).touchendOn = false ∧
    (unmount s).leftPaneSize = s.leftPaneSize ∧
    (s.mousemoveOn = false → s.mouseupOn = false → s.touchmoveOn = false →
      s.touchendOn = false → unmount s = s) := by
  refine ⟨rfl, rfl, rfl, rfl, rfl, ?_⟩
  intro h1 h2 h3 h4
  cases s
  simp_all [unmount, removeEventListeners]

/-- Witness for C8: cleanup on a freshly mounted listener-free state is a
no-op. -/
theorem unmount_removes_listeners_witness :
    unmount (initialState (.str "50%".data)) =
      initialState (.str "50%".data) :=
  (unmount_removes_listeners
    (initialState (.str "50%".data))).2.2.2.2.2 rfl rfl rfl rfl

/-- C9: with a pixel-valued `minSize` (a number, or a non-percentage numeric
string) the container's min-width is twice `minSize` plus the divider's
current width; with a percentage `minSize` no container min-width is set. -/
theorem containerMinWidth_correct (mv dw : ℚ) (s t : List Char)
    (hs : isPercentage s = false) (hsv : jsNumberStr s = some mv)
    (ht : isPercentage t = true) :
    containerMinWidth (.num mv) (some dw) = some (some (mv * 2 + dw)) ∧
    containerMinWidth (.str s) (some dw) = some (some (mv * 2 + dw)) ∧
    containerMinWidth (.str t) (some dw) = none := by
  refine ⟨?_, ?_, ?_⟩
  · simp [containerMinWidth, isMinSizeInPercentage, jsNumberSV]
  · simp [containerMinWidth, isMinSizeInPercentage, hs, jsNumberSV, hsv]
  · simp [containerMinWidth, isMinSizeInPercentage, ht]

unseal Rat.mul Rat.add Rat.sub Rat.inv in
/-- Witness for C9: minSize 100 (as a number and as the string form) gives a
container min-width of 208 with an 8-pixel divider; a percentage minSize
sets none. -/
theorem containerMinWidth_correct_witness :
    containerMinWidth (.num 100) (some 8) = some (some (100 * 2 + 8)) ∧
    containerMinWidth (.str "100".data) (some 8) =
      some (some (100 * 2 + 8)) ∧
    containerMinWidth (.str "30%".data) (some 8) = none :=
  containerMinWidth_correct 100 8 "100".data "30%".data (by decide)
    (by decide) (by decide)

/-- C10: with the container ref null, the pixel-to-percentage conversion
returns zero for every input, a move event stores the string of zero
percent, and the aria values computed from pixel-valued sizes evaluate to
zero. -/
theorem unmounted_conversion_zero (minSize px : SizeValue) (x : ℚ)
    (s : PaneState) :
    convertPixelToPercentage none minSize px = some 0 ∧
    (handleMove none minSize x s).leftPaneSize = .str ['0', '%'] ∧
    getPercentage none minSize (.num x) = some 0 ∧
    ariaValueNow none minSize (.num x) = some 0 ∧
    ariaValueMin none (.num x) = some 0 :=
  ⟨rfl, rfl, rfl, rfl, rfl⟩

/-- C7: after a drag move event the left-pane size is stored as a
percentage string, it remains a percentage string after every further event
sequence regardless of the original unit of `initialSize`, and the left
slot's flex basis is then exactly that stored percentage string. -/
theorem move_stores_percent_string (geom : Option Rect)
    (minSize : SizeValue) (s : PaneState) (x : ℚ) (es : List Ev)
    (h : s.mousemoveOn = true) :
    isStrVal ((runScript geom minSize (step geom minSize s (.mouseMove x))
        es).leftPaneSize) = true ∧
    isPercentage (sizeChars ((runScript geom minSize
        (step geom minSize s (.mouseMove x)) es).leftPaneSize)) = true ∧
    flexBasis ((runScript geom minSize
        (step geom minSize s (.mouseMove x)) es).leftPaneSize) =
      sizeChars ((runScript geom minSize
        (step geom minSize s (.mouseMove x)) es).leftPaneSize) := by
  have h1 : IsPctStringForm
      ((step geom minSize s (.mouseMove x)).leftPaneSize) := by
    simp only [step, h, if_true]
    exact handleMove_pctForm geom minSize x s
  obtain ⟨q, hq⟩ := runScript_pctForm geom minSize es _ h1
  rw [hq]
  refine ⟨rfl, ?_, ?_⟩
  · show isPercentage (ratChars q ++ ['%']) = true
    exact isPercentage_append_percent _
  · rw [flexBasis_pctStr]
    rfl

/-- Witness for C7: a concrete drag at 400 pixels from a 50 percent start
with the mouse listeners registered. -/
theorem move_stores_percent_string_witness :
    (⟨.str "50%".data, true, true, false, false⟩ : PaneState).mousemoveOn =
      true ∧
    (isStrVal ((runScript (some ⟨1000, 0⟩) (.num 100)
        (step (some ⟨1000, 0⟩) (.num 100)
          ⟨.str "50%".data, true, true, false, false⟩ (.mouseMove 400))
        []).leftPaneSize) = true ∧
    isPercentage (sizeChars ((runScript (some ⟨1000, 0⟩) (.num 100)
        (step (some ⟨1000, 0⟩) (.num 100)
          ⟨.str "50%".data, true, true, false, false⟩ (.mouseMove 400))
        []).leftPaneSize)) = true ∧
    flexBasis ((runScript (some ⟨1000, 0⟩) (.num 100)
        (step (some ⟨1000, 0⟩) (.num 100)
          ⟨.str "50%".data, true, true, false, false⟩ (.mouseMove 400))
        []).leftPaneSize) =
      sizeChars ((runScript (some ⟨1000, 0⟩) (.num 100)
        (step (some ⟨1000, 0⟩) (.num 100)
          ⟨.str "50%".data, true, true, false, false⟩ (.mouseMove 400))
        []).leftPaneSize)) :=
  ⟨rfl, move_stores_percent_string (some ⟨1000, 0⟩) (.num 100)
    ⟨.str "50%".data, true, true, false, false⟩ 400 [] rfl⟩

/-- C2 (amended): for a mounted container of positive width whose
normalized minimum is at most half the width, the left-pane size after any
event sequence is either untouched or a percentage string whose pixel
normalization lies within the interval from `minSize` pixels to the width
minus `minSize` pixels.  (As literally stated — including for a pixel
`minSize` above half the container width — the claim is refuted by
`size_invariant_counterexample`: there the claimed interval is empty and
the clamped result violates its upper bound.) -/
theorem size_invariant_after_moves (W L m : ℚ) (minSize : SizeValue)
    (s : PaneState) (es : List Ev) (hW : 0 < W)
    (hm : minPixelOf W minSize = some m) (h2 : m ≤ W - m) :
    (runScript (some ⟨W, L⟩) minSize s es).leftPaneSize = s.leftPaneSize ∨
      SizeInBounds W m
        ((runScript (some ⟨W, L⟩) minSize s es).leftPaneSize) :=
  runScript_bounds W L m minSize hW hm h2 es s

/-- Witness for C2: a mouse drag to 400 in a 1000-wide container with
minSize 100. -/
theorem size_invariant_after_moves_witness :
    (0 : ℚ) < 1000 ∧ minPixelOf 1000 (.num 100) = some 100 ∧
    (100 : ℚ) ≤ 1000 - 100 ∧
    ((runScript (some ⟨1000, 0⟩) (.num 100)
        (initialState (.str "50%".data))
        [.mouseDown, .mouseMove 400]).leftPaneSize =
      (initialState (.str "50%".data)).leftPaneSize ∨
      SizeInBounds 1000 100
        ((runScript (some ⟨1000, 0⟩) (.num 100)
          (initialState (.str "50%".data))
          [.mouseDown, .mouseMove 400]).leftPaneSize)) :=
  ⟨by norm_num, rfl, by norm_num,
    size_invariant_after_moves 1000 0 100 (.num 100)
      (initialState (.str "50%".data)) [.mouseDown, .mouseMove 400]
      (by norm_num) rfl (by norm_num)⟩

unseal Rat.mul Rat.add Rat.sub Rat.inv in
/-- Counterexample to C2 as stated: minSize 60 pixels in a 100-pixel
container is accepted by validation, yet a single drag event stores 60
percent, whose pixel normalization 60 exceeds the claimed upper bound
`totalWidth - minSize = 40`. -/
theorem size_invariant_counterexample :
    sizeValidationError (.str "50%".data) (.num 60) = none ∧
    minPixelOf 100 (.num 60) = some 60 ∧
    (runScript (some ⟨100, 0⟩) (.num 60) (initialState (.str "50%".data))
        [.mouseDown, .mouseMove 0]).leftPaneSize = pctStr 60 ∧
    ¬((60 : ℚ) / 100 * 100 ≤ 100 - 60) := by
  refine ⟨by decide, rfl, by decide, by norm_num⟩

/-- C1: for a mounted container (positive width, normalized minimum at most
half of it), converting a coordinate yields the clamp of its offset from
the container's left edge to `[minPixel, width - minPixel]`, as a
percentage of the width; a coordinate left of the container yields exactly
`minPixel` pixels, one past the right edge exactly `width - minPixel`
pixels. -/
theorem convert_is_clamp (W L m x : ℚ) (minSize : SizeValue)
    (hW : 0 < W) (hm : minPixelOf W minSize = some m)
    (h0 : 0 ≤ m) (h2 : m ≤ W - m) :
    convertPixelToPercentage (some ⟨W, L⟩) minSize (.num x) =
      some (max m (min (x - L) (W - m)) / W * 100) ∧
    (x < L → convertPixelToPercentage (some ⟨W, L⟩) minSize (.num x) =
      some (m / W * 100) ∧ m / W * 100 / 100 * W = m) ∧
    (x > L + W → convertPixelToPercentage (some ⟨W, L⟩) minSize (.num x) =
      some ((W - m) / W * 100) ∧ (W - m) / W * 100 / 100 * W = W - m) := by
  have hW0 : W ≠ 0 := ne_of_gt hW
  have hbase := convert_num_eq W L m x minSize hm
  refine ⟨?_, ?_, ?_⟩
  · rw [hbase, ifClamp_eq_max_min (x - L) m (W - m) h2]
  · intro hx
    have hlt : x - L < m := by linarith
    constructor
    · rw [hbase, if_pos hlt]
    · exact div_mul_roundtrip m W hW0
  · intro hx
    have hge : ¬ (x - L < m) := by push_neg; linarith
    have hgt : x - L > W - m := by linarith
    constructor
    · rw [hbase, if_neg hge, if_pos hgt]
    · exact div_mul_roundtrip (W - m) W hW0

/-- Witness for C1: container width 1000 at left edge 0, minSize 100,
coordinate minus 50. -/
theorem convert_is_clamp_witness :
    (0 : ℚ) < 1000 ∧ minPixelOf 1000 (.num 100) = some 100 ∧
    (0 : ℚ) ≤ 100 ∧ (100 : ℚ) ≤ 1000 - 100 ∧
    (convertPixelToPercentage (some ⟨1000, 0⟩) (.num 100) (.num (-50)) =
      some (max 100 (min ((-50) - 0) (1000 - 100)) / 1000 * 100) ∧
    ((-50 : ℚ) < 0 →
      convertPixelToPercentage (some ⟨1000, 0⟩) (.num 100) (.num (-50)) =
        some (100 / 1000 * 100) ∧
      (100 : ℚ) / 1000 * 100 / 100 * 1000 = 100) ∧
    ((-50 : ℚ) > 0 + 1000 →
      convertPixelToPercentage (some ⟨1000, 0⟩) (.num 100) (.num (-50)) =
        some ((1000 - 100) / 1000 * 100) ∧
      ((1000 : ℚ) - 100) / 1000 * 100 / 100 * 1000 = 1000 - 100)) :=
  ⟨by norm_num, rfl, by norm_num, by norm_num,
    convert_is_clamp 1000 0 100 (-50) (.num 100) (by norm_num) rfl
      (by norm_num) (by norm_num)⟩

/-- C6 (amended): from a mounted state holding the percentage `q0` whose
pixel width `p = q0 / 100 * W` satisfies `m ≤ p` and `p + 10 ≤ W - m` (at
least ten pixels from the right clamp bound), ArrowRight synthesizes one
move at the divider's left edge plus ten — registering no listeners — and
ArrowLeft at the new edge restores the exact pre-interaction state.  (At
the right clamp boundary the round trip fails:
`arrow_roundtrip_counterexample`.) -/
theorem arrow_roundtrip (W L d1 d2 m q0 : ℚ) (minSize : SizeValue)
    (s : PaneState) (hW : 0 < W) (hm : minPixelOf W minSize = some m)
    (hs : s.leftPaneSize = pctStr q0) (hlo : m ≤ q0 / 100 * W)
    (hhi : q0 / 100 * W + 10 ≤ W - m) :
    step (some ⟨W, L⟩) minSize s
        (.keyDown (some ⟨d1, L + q0 / 100 * W⟩) .arrowRight) =
      { s with leftPaneSize := pctStr ((q0 / 100 * W + 10) / W * 100) } ∧
    step (some ⟨W, L⟩) minSize
        (step (some ⟨W, L⟩) minSize s
          (.keyDown (some ⟨d1, L + q0 / 100 * W⟩) .arrowRight))
        (.keyDown (some ⟨d2, L + (q0 / 100 * W + 10)⟩) .arrowLeft) = s := by
  obtain ⟨l, fa, fb, fc, fd⟩ := s
  change l = pctStr q0 at hs
  subst hs
  have hW0 : W ≠ 0 := ne_of_gt hW
  have hc1 := convert_num_eq W L m (L + q0 / 100 * W + 10) minSize hm
  rw [show L + q0 / 100 * W + 10 - L = q0 / 100 * W + 10 from by ring]
    at hc1
  rw [if_neg (by linarith), if_neg (by linarith)] at hc1
  have h1 : step (some ⟨W, L⟩) minSize ⟨pctStr q0, fa, fb, fc, fd⟩
      (.keyDown (some ⟨d1, L + q0 / 100 * W⟩) .arrowRight) =
      ⟨pctStr ((q0 / 100 * W + 10) / W * 100), fa, fb, fc, fd⟩ := by
    show handleMove (some ⟨W, L⟩) minSize (L + q0 / 100 * W + 10)
      ⟨pctStr q0, fa, fb, fc, fd⟩ = _
    simp only [handleMove, hc1, optRatChars]
    rfl
  refine ⟨h1, ?_⟩
  rw [h1]
  show handleMove (some ⟨W, L⟩) minSize (L + (q0 / 100 * W + 10) - 10)
    ⟨pctStr ((q0 / 100 * W + 10) / W * 100), fa, fb, fc, fd⟩ = _
  have hc2 := convert_num_eq W L m (L + (q0 / 100 * W + 10) - 10) minSize hm
  rw [show L + (q0 / 100 * W + 10) - 10 - L = q0 / 100 * W from by ring]
    at hc2
  rw [if_neg (by linarith), if_neg (by linarith)] at hc2
  have hq : q0 / 100 * W / W * 100 = q0 := by
    field_simp
    ring
  simp only [handleMove, hc2, optRatChars, hq]
  rfl

/-- Witness for C6: a 50 percent pane in a 1000-wide container with minSize
100 makes the ArrowRight-ArrowLeft round trip exactly. -/
theorem arrow_roundtrip_witness :
    (0 : ℚ) < 1000 ∧ minPixelOf 1000 (.num 100) = some 100 ∧
    (⟨pctStr 50, false, false, false, false⟩ : PaneState).leftPaneSize =
      pctStr 50 ∧
    (100 : ℚ) ≤ 50 / 100 * 1000 ∧ (50 : ℚ) / 100 * 1000 + 10 ≤ 1000 - 100 ∧
    (step (some ⟨1000, 0⟩) (.num 100)
        (⟨pctStr 50, false, false, false, false⟩ : PaneState)
        (.keyDown (some ⟨5, 0 + 50 / 100 * 1000⟩) .arrowRight) =
      { (⟨pctStr 50, false, false, false, false⟩ : PaneState) with
          leftPaneSize := pctStr ((50 / 100 * 1000 + 10) / 1000 * 100) } ∧
    step (some ⟨1000, 0⟩) (.num 100)
        (step (some ⟨1000, 0⟩) (.num 100)
          (⟨pctStr 50, false, false, false, false⟩ : PaneState)
          (.keyDown (some ⟨5, 0 + 50 / 100 * 1000⟩) .arrowRight))
        (.keyDown (some ⟨5, 0 + (50 / 100 * 1000 + 10)⟩) .arrowLeft) =
      (⟨pctStr 50, false, false, false, false⟩ : PaneState)) :=
  ⟨by norm_num, rfl, rfl, by norm_num, by norm_num,
    arrow_roundtrip 1000 0 5 5 100 50 (.num 100)
      ⟨pctStr 50, false, false, false, false⟩ (by norm_num) rfl rfl
      (by norm_num) (by norm_num)⟩

unseal Rat.mul Rat.add Rat.sub Rat.inv in
/-- Counterexample to C6 as stated: a mounted state at the right clamp
boundary (90 percent of 1000 pixels with minSize 100, i.e. exactly
`width - minSize`).  ArrowRight leaves the pane at 90 percent (clamped), so
the following ArrowLeft lands at 89 percent: the round trip does not
restore the pre-interaction value. -/
theorem arrow_roundtrip_counterexample :
    minPixelOf 1000 (.num 100) = some 100 ∧
    (90 : ℚ) / 100 * 1000 = 1000 - 100 ∧
    (step (some ⟨1000, 0⟩) (.num 100)
        (⟨pctStr 90, false, false, false, false⟩ : PaneState)
        (.keyDown (some ⟨5, 900⟩) .arrowRight)).leftPaneSize = pctStr 90 ∧
    (step (some ⟨1000, 0⟩) (.num 100)
        (step (some ⟨1000, 0⟩) (.num 100)
          (⟨pctStr 90, false, false, false, false⟩ : PaneState)
          (.keyDown (some ⟨5, 900⟩) .arrowRight))
        (.keyDown (some ⟨5, 900⟩) .arrowLeft)).leftPaneSize = pctStr 89 ∧
    pctStr 89 ≠ pctStr 90 := by
  refine ⟨rfl, by norm_num, by decide, by decide, by decide⟩

/-- C3 (amended): for a mounted container with its left edge at the origin
and a valid minimum (`0 ≤ m ≤ W - m`), the divider's aria-valuemin is
`minSize` as a percentage of the width, aria-valuemax is one hundred minus
that, and aria-valuenow is the current left-pane size as a percentage —
for a percentage-string left-pane size always, and for a pixel-valued one
whenever it lies within the clamp interval.  (With a nonzero container
left offset the pixel case fails: `aria_value_now_counterexample`.) -/
theorem aria_values_at_origin (W m lv nv : ℚ) (minSize lp : SizeValue)
    (t : List Char) (hW : 0 < W) (hm : minPixelOf W minSize = some m)
    (h0 : 0 ≤ m) (h2 : m ≤ W - m)
    (hkind : (∃ q, minSize = .num q) ∨
      ∃ u, minSize = .str u ∧ isPercentage u = true) :
    ariaValueMin (some ⟨W, 0⟩) minSize = some (m / W * 100) ∧
    ariaValueMax (some ⟨W, 0⟩) minSize = some (100 - m / W * 100) ∧
    (lp = .num lv → m ≤ lv → lv ≤ W - m →
      ariaValueNow (some ⟨W, 0⟩) minSize lp = some (lv / W * 100)) ∧
    (lp = .str t → isPercentage t = true →
      parseFloat (replaceFirstPercent t) = some nv →
      ariaValueNow (some ⟨W, 0⟩) minSize lp = some nv) := by
  have hW0 : W ≠ 0 := ne_of_gt hW
  have hmin : ariaValueMin (some ⟨W, 0⟩) minSize = some (m / W * 100) := by
    rcases hkind with ⟨q, hq⟩ | ⟨u, hu, hpu⟩
    · subst hq
      have hqm : q = m := by
        have := hm
        simp only [minPixelOf] at this
        exact Option.some.inj this
      subst hqm
      have hc := convert_num_eq W 0 q q (.num q) hm
      rw [sub_zero, if_neg (lt_irrefl q), if_neg (by linarith)] at hc
      exact hc
    · subst hu
      rw [minPixelOf, if_pos hpu] at hm
      obtain ⟨v, hv, hvm⟩ := Option.map_eq_some'.mp hm
      have hveq : m / W * 100 = v := by
        rw [← hvm]
        field_simp
        ring
      show getPercentage (some ⟨W, 0⟩) (.str u) (.str u) =
        some (m / W * 100)
      simp [getPercentage, hpu, hv, hveq]
  refine ⟨hmin, ?_, ?_, ?_⟩
  · rw [ariaValueMax, hmin]
    rfl
  · intro hlp hl1 hl2
    subst hlp
    have hc := convert_num_eq W 0 m lv minSize hm
    rw [sub_zero, if_neg (by linarith), if_neg (by linarith)] at hc
    exact hc
  · intro hlp hpt hpv
    subst hlp
    show getPercentage (some ⟨W, 0⟩) minSize (.str t) = some nv
    simp [getPercentage, hpt, hpv]

/-- Witness for C3: width 1000 at the origin, minSize 100 pixels, left-pane
size 300 pixels. -/
theorem aria_values_at_origin_witness :
    (0 : ℚ) < 1000 ∧ minPixelOf 1000 (.num 100) = some 100 ∧
    (0 : ℚ) ≤ 100 ∧ (100 : ℚ) ≤ 1000 - 100 ∧
    (ariaValueMin (some ⟨1000, 0⟩) (.num 100) = some (100 / 1000 * 100) ∧
    ariaValueMax (some ⟨1000, 0⟩) (.num 100) =
      some (100 - 100 / 1000 * 100) ∧
    ((SizeValue.num 300 : SizeValue) = .num 300 → (100 : ℚ) ≤ 300 →
      (300 : ℚ) ≤ 1000 - 100 →
      ariaValueNow (some ⟨1000, 0⟩) (.num 100) (.num 300) =
        some (300 / 1000 * 100)) ∧
    ((SizeValue.num 300 : SizeValue) = .str "30%".data →
      isPercentage "30%".data = true →
      parseFloat (replaceFirstPercent "30%".data) = some 0 →
      ariaValueNow (some ⟨1000, 0⟩) (.num 100) (.num 300) = some 0)) :=
  ⟨by norm_num, rfl, by norm_num, by norm_num,
    aria_values_at_origin 1000 100 300 0 (.num 100) (.num 300) "30%".data
      (by norm_num) rfl (by norm_num) (by norm_num) (Or.inl ⟨100, rfl⟩)⟩

unseal Rat.mul Rat.add Rat.sub Rat.inv in
/-- Counterexample to C3 as stated: a mounted container whose left edge is
at 500 (any nested or offset layout), minSize 100, left-pane size 300
pixels.  The divider exposes aria-valuenow 10, but 300 pixels of a
1000-pixel container is 30 percent. -/
theorem aria_value_now_counterexample :
    ariaValueNow (some ⟨1000, 500⟩) (.num 100) (.num 300) = some 10 ∧
    (300 : ℚ) / 1000 * 100 = 30 ∧ (10 : ℚ) ≠ 30 := by
  refine ⟨by decide, by norm_num, by norm_num⟩

theorem validateSize_none_iff (v : SizeValue) (l : SizeLabel) :
    validateSize v l = none ↔ OkSizeNum v := by
  cases h : sizeNumber v with
  | none =>
    constructor
    · intro hc
      exact absurd hc (by simp [validateSize, h])
    · rintro ⟨q, hq, h0⟩
      rw [h] at hq
      cases hq
  | some q =>
    by_cases hq : q < 0
    · constructor
      · intro hc
        exact absurd hc (by simp [validateSize, h, hq])
      · rintro ⟨q', hq', h0⟩
        rw [h] at hq'
        cases hq'
        linarith
    · exact iff_of_true (by simp [validateSize, h, hq])
        ⟨q, h, le_of_not_lt hq⟩

theorem minSizePctCheck_none_iff (m : SizeValue) :
    minSizePctCheck m = none ↔ MinPctBound m := by
  cases m with
  | num q => simp [minSizePctCheck, MinPctBound]
  | str s =>
    by_cases hp : isPercentage s = true
    · cases hpf : parseFloat (replaceFirstPercent s) with
      | none =>
        apply iff_of_true (by simp [minSizePctCheck, hp, hpf])
        intro _ v hv
        rw [hpf] at hv
        cases hv
      | some v =>
        by_cases hv : v > 50
        · apply iff_of_false (by simp [minSizePctCheck, hp, hpf, hv])
          intro hb
          have := hb hp v (by rw [hpf])
          linarith
        · apply iff_of_true (by simp [minSizePctCheck, hp, hpf, hv])
          intro _ w hw
          rw [hpf] at hw
          cases hw
          exact le_of_not_lt hv
    · apply iff_of_true (by simp [minSizePctCheck, hp])
      intro hc
      exact absurd hc hp

/-- C4 (amended): size validation succeeds exactly when both sizes have a
non-negative numeric view under JavaScript parsing (for strings, the
longest numeric prefix after optional whitespace) and any percentage
`minSize` parses to at most fifty.  (The claim's characterization of the
accepted strings — that a string like a number followed by letters is
rejected — is refuted by `validation_accepts_nonshape_string`.) -/
theorem size_validation_iff (i m : SizeValue) :
    sizeValidationError i m = none ↔
      (OkSizeNum i ∧ OkSizeNum m ∧ MinPctBound m) := by
  constructor
  · intro hnone
    unfold sizeValidationError at hnone
    cases h1 : validateSize i .initial with
    | some e => rw [h1] at hnone; cases hnone
    | none =>
      rw [h1] at hnone
      cases h2 : validateSize m .min with
      | some e => rw [h2] at hnone; cases hnone
      | none =>
        rw [h2] at hnone
        exact ⟨(validateSize_none_iff i .initial).mp h1,
          (validateSize_none_iff m .min).mp h2,
          (minSizePctCheck_none_iff m).mp hnone⟩
  · rintro ⟨hi, hm', hp⟩
    unfold sizeValidationError
    rw [(validateSize_none_iff i .initial).mpr hi,
      (validateSize_none_iff m .min).mpr hm']
    exact (minSizePctCheck_none_iff m).mpr hp

unseal Rat.mul Rat.add Rat.sub Rat.inv in
/-- Witness for C4: the string of one hundred followed by letters and a
numeric minSize are both accepted by validation. -/
theorem size_validation_iff_witness :
    sizeValidationError (.str "100px".data) (.num 100) = none :=
  (size_validation_iff (.str "100px".data) (.num 100)).mpr
    ⟨⟨100, by decide, by norm_num⟩, ⟨100, rfl, by norm_num⟩, trivial⟩

unseal Rat.mul Rat.add Rat.sub Rat.inv in
/-- Counterexample to C4 as stated: the string of one hundred followed by
letters is not of the spec's accepted shape, yet JavaScript `parseFloat`
reads its numeric prefix, so validation accepts it without error. -/
theorem validation_accepts_nonshape_string :
    specNumericShape "100px".data = false ∧
    sizeValidationError (.str "100px".data) (.num 100) = none ∧
    sizeNumber (.str "100px".data) = some 100 := by
  refine ⟨by decide, by decide, by decide⟩

end SplitPaneModel
